import Mathlib

/-!
Shallow embedding of the curvesim snapshot-resolution pipeline:
`curvesim/network/curve_prices.py` (chain aliasing, the three fetchers,
the `pool_snapshot` assembler, the pool-family table) and
`curvesim/pool_data/queries/metadata.py` (`from_address` fallback,
LENDING coin rewrite, `_validate_metadata`).

External collaborators (HTTP transport, the subgraph client, `eth_utils`
checksumming, `web3` underlying-coin lookup, the wall clock) are modelled
as parameters: the provider backend is an `Env` of response tables, the
subgraph client an abstract fallible function, checksumming an abstract
string function carried by `Env`.

Python `float` balances are embedded as exact rationals `ℚ`; Python
`int(x)` is truncation toward zero (`pyint`).  Python exceptions are the
`Err` inductive carried in `Except`; the unbounded recursion of
`pool_snapshot` into base pools is paid for with explicit fuel, fuel
exhaustion standing for non-termination.
-/

/-- Values stored in the `params` dict of a snapshot: ints, nulls
(`fee_mul` may be None), or lists of ints (`price_scale` etc.). -/
inductive PVal where
  | int (z : ℤ)
  | null
  | intList (l : List ℤ)
deriving DecidableEq, Repr

/-- The original wrapped-coin record kept under the `wrapper` key for
LENDING pools. -/
structure WrapRec where
  names : List String
  addresses : List String
  decimals : List ℕ
deriving DecidableEq, Repr

/-- The `coins` record of a snapshot: parallel arrays plus the optional
`wrapper` sub-record. -/
structure CoinsRec where
  names : List String
  addresses : List String
  decimals : List ℕ
  wrapper : Option WrapRec := none
deriving DecidableEq, Repr

/-- The `reserves` record of a snapshot. -/
structure ReservesRec where
  by_coin : List ℤ
  unnormalized_by_coin : List ℤ
deriving DecidableEq, Repr

/-- The snapshot dict returned by `pool_snapshot` / `from_address`.
Recursive: `basepool` is an optional nested snapshot. -/
inductive PoolSnap where
  | mk (name : String) (address : String) (chain : String) (symbol : String)
      (pool_type : String) (params : List (String × PVal)) (coins : CoinsRec)
      (reserves : ReservesRec) (basepool : Option PoolSnap) (timestamp : ℤ)

def PoolSnap.name : PoolSnap → String
  | .mk n _ _ _ _ _ _ _ _ _ => n

def PoolSnap.address : PoolSnap → String
  | .mk _ a _ _ _ _ _ _ _ _ => a

def PoolSnap.chain : PoolSnap → String
  | .mk _ _ c _ _ _ _ _ _ _ => c

def PoolSnap.symbol : PoolSnap → String
  | .mk _ _ _ s _ _ _ _ _ _ => s

def PoolSnap.pool_type : PoolSnap → String
  | .mk _ _ _ _ t _ _ _ _ _ => t

def PoolSnap.params : PoolSnap → List (String × PVal)
  | .mk _ _ _ _ _ p _ _ _ _ => p

def PoolSnap.coins : PoolSnap → CoinsRec
  | .mk _ _ _ _ _ _ c _ _ _ => c

def PoolSnap.reserves : PoolSnap → ReservesRec
  | .mk _ _ _ _ _ _ _ r _ _ => r

def PoolSnap.basepool : PoolSnap → Option PoolSnap
  | .mk _ _ _ _ _ _ _ _ b _ => b

def PoolSnap.timestamp : PoolSnap → ℤ
  | .mk _ _ _ _ _ _ _ _ _ t => t

/-- One coin entry in provider metadata. -/
structure CoinInfo where
  symbol : String
  address : String
  decimals : ℕ
deriving DecidableEq, Repr

/-- Provider pool metadata (`GET pools/{chain}/{address}/metadata`). -/
structure PoolMeta where
  name : String
  pool_type : String
  metapool : Bool
  base_pool : String
  coins : List CoinInfo
  vyper_version : Option String
  deployment_tx : Option String
  deployment_block : Option ℤ
deriving DecidableEq, Repr

/-- One parameter row (`GET snapshots/{chain}/{address}`).  The nullable
`offpeg_fee_multiplier` is an `Option`; providers report the other fields
as numbers which `pool_snapshot` passes through `int`, embedded as `ℤ`. -/
structure ParamRow where
  a : ℤ
  fee : ℤ
  offpeg_fee_multiplier : Option ℤ
  admin_fee : ℤ
  virtual_price : ℤ
  gamma : ℤ
  fee_gamma : ℤ
  mid_fee : ℤ
  out_fee : ℤ
  allowed_extra_profit : ℤ
  adjustment_step : ℤ
  ma_half_time : ℤ
  price_scale : List ℤ
  price_oracle : List ℤ
  xcp_profit : ℤ
  xcp_profit_a : ℤ
deriving DecidableEq, Repr

/-- One balance row (`GET snapshots/{chain}/{address}/tvl`): floating
balances and token prices embedded as rationals. -/
structure BalanceRow where
  balances : List ℚ
  token_prices : List ℚ
  timestamp : ℤ
deriving DecidableEq, Repr

/-- Python exceptions arising in the pipeline.  `apiResult` is
`ApiResultError`, `keyError` a dict-lookup failure, `http` a transport
failure inside the HTTP collaborator, `indexError` a list index failure,
`zeroDivision` a float division by zero; `outOfFuel` models a
non-terminating recursion into base pools. -/
inductive Err where
  | apiResult (msg : String)
  | keyError (key : String)
  | http
  | indexError
  | zeroDivision
  | outOfFuel
deriving DecidableEq, Repr

/-- The Prices-API backend together with the external checksummer:
`metadata`, `params` and `balances` are the three endpoint tables, keyed
by the canonical chain segment and checksummed address that the fetchers
place in the request URL; `none` is a transport-level failure. -/
structure Env where
  checksum : String → String
  metadata : String → String → Option PoolMeta
  params : String → String → ℤ → ℤ → Option (List ParamRow)
  balances : String → String → ℤ → ℤ → String → Option (List BalanceRow)

/-- Python `int(x)` on a real value: truncation toward zero. -/
def pyint (q : ℚ) : ℤ := if 0 ≤ q then ⌊q⌋ else ⌈q⌉

/-- Base `URL` from `curve_prices.py`. -/
def URL : String := "https://prices.curve.fi/v1/"

/-- Alias table `CHAIN_ALIASES` from `curve_prices.py`, as an association list. -/
def CHAIN_ALIASES : List (String × String) :=
  [("mainnet", "ethereum"), ("matic", "polygon")]

/-- Reversed table `REVERSE_CHAIN_ALIASES`: the alias pairs swapped. -/
def REVERSE_CHAIN_ALIASES : List (String × String) :=
  CHAIN_ALIASES.map (fun p => (p.2, p.1))

/-- Resolver `_chain_from_alias`: translate an alias to its canonical chain id,
passing unknown identifiers through unchanged. -/
def _chain_from_alias (chain : String) : String :=
  ((CHAIN_ALIASES.lookup chain).getD chain)

/-- Request URL of `_pool_metadata` (chain already alias-resolved and
address checksummed by the fetcher before the URL is built). -/
def metadata_url (chain address : String) : String :=
  URL ++ "pools/" ++ chain ++ "/" ++ address ++ "/metadata"

/-- Request URL of `_pool_parameters`. -/
def parameters_url (chain address : String) : String :=
  URL ++ "snapshots/" ++ chain ++ "/" ++ address

/-- Request URL of `_pool_balances`. -/
def balances_url (chain address : String) : String :=
  URL ++ "snapshots/" ++ chain ++ "/" ++ address ++ "/tvl"

/-- Fetcher `_pool_metadata`: alias-resolve the chain, checksum the address,
fetch; fail with a bare `ApiResultError` when any required deployment
field is null. -/
def _pool_metadata (env : Env) (address chain : String) : Except Err PoolMeta :=
  let c := _chain_from_alias chain
  let a := env.checksum address
  match env.metadata c a with
  | none => .error .http
  | some d =>
    if d.vyper_version.isNone || d.deployment_tx.isNone || d.deployment_block.isNone then
      .error (.apiResult "")
    else
      .ok d

/-- Fetcher `_pool_parameters`: alias-resolve, checksum, fetch the window; an
empty result list raises `ApiResultError`. -/
def _pool_parameters (env : Env) (address chain : String) (start_ts end_ts : ℤ) :
    Except Err (List ParamRow) :=
  let c := _chain_from_alias chain
  let a := env.checksum address
  match env.params c a start_ts end_ts with
  | none => .error .http
  | some [] =>
    .error (.apiResult ("pass\nTimestamps: (start: " ++ toString start_ts ++
      ", end: " ++ toString end_ts ++ ")"))
  | some data => .ok data

/-- Fetcher `_pool_balances`: alias-resolve, checksum, fetch the window with the
unit (default "day"); an empty result list raises `ApiResultError`. -/
def _pool_balances (env : Env) (address chain : String) (start_ts end_ts : ℤ)
    (unit : String := "day") : Except Err (List BalanceRow) :=
  let c := _chain_from_alias chain
  let a := env.checksum address
  match env.balances c a start_ts end_ts unit with
  | none => .error .http
  | some [] =>
    .error (.apiResult ("pass\nTimestamps: (start: " ++ toString start_ts ++
      ", end: " ++ toString end_ts ++ ")"))
  | some data => .ok data

/-- Family table `pool_type_to_amm` from `curve_prices.py`: a partial map from the
provider tag to an optional AMM family (`crvusd` maps to null; an
unlisted tag is a `KeyError` at lookup). -/
def pool_type_to_amm : String → Option (Option String)
  | "main" => some (some "stableswap")
  | "crypto" => some (some "cryptoswap")
  | "factory" => some (some "stableswap")
  | "factory_crypto" => some (some "cryptoswap")
  | "crvusd" => some none
  | "factory_tricrypto" => some (some "cryptoswap")
  | "stableswapng" => some (some "stableswap")
  | "twocryptong" => some (some "cryptoswap")
  | _ => none

/-- The message of the `ApiResultError` raised for a pool family that is
neither stableswap nor cryptoswap. -/
def unsupported_msg (pool_type : String) : String :=
  "Pulling snapshots for non-Stableswap or non-Cryptoswap pools is not yet supported. Pool type: \"" ++
    pool_type ++ "\""

/-- The stableswap `params` dict built by `pool_snapshot`, in insertion
order. -/
def stable_params (latest_snapshot : ParamRow) : List (String × PVal) :=
  [("A", .int latest_snapshot.a),
   ("fee", .int latest_snapshot.fee),
   ("fee_mul",
     match latest_snapshot.offpeg_fee_multiplier with
     | some v => .int v
     | none => .null),
   ("admin_fee", .int latest_snapshot.admin_fee),
   ("virtual_price", .int latest_snapshot.virtual_price)]

/-- The cryptoswap `params` dict built by `pool_snapshot`, in insertion
order; `last_prices` divides each secondary USD quote by the first
token's quote and scales by 10^18, `int`-truncated. -/
def crypto_params (latest_snapshot : ParamRow) (token_price_base : ℚ)
    (secondary_prices : List ℚ) (balances_timestamp : ℤ) : List (String × PVal) :=
  [("A", .int latest_snapshot.a),
   ("gamma", .int latest_snapshot.gamma),
   ("fee_gamma", .int latest_snapshot.fee_gamma),
   ("mid_fee", .int latest_snapshot.mid_fee),
   ("out_fee", .int latest_snapshot.out_fee),
   ("allowed_extra_profit", .int latest_snapshot.allowed_extra_profit),
   ("adjustment_step", .int latest_snapshot.adjustment_step),
   ("ma_half_time", .int latest_snapshot.ma_half_time),
   ("price_scale", .intList latest_snapshot.price_scale),
   ("price_oracle", .intList latest_snapshot.price_oracle),
   ("last_prices",
     .intList (secondary_prices.map (fun usd => pyint (usd * (10 : ℚ) ^ 18 / token_price_base)))),
   ("last_prices_timestamp", .int balances_timestamp),
   ("admin_fee", .int latest_snapshot.admin_fee),
   ("xcp_profit", .int latest_snapshot.xcp_profit),
   ("xcp_profit_a", .int latest_snapshot.xcp_profit_a),
   ("virtual_price", .int latest_snapshot.virtual_price)]

/-- The non-recursive tail of `pool_snapshot`: coin truncation for
metapools, the `coins` arrays, the reserve arrays (zip of provider
balances with decimals, each balance `int`-truncated at 10^18 and at the
coin's own decimals), the chain back-translation, and the family
dispatch on `pool_type_to_amm` (unlisted tag: `KeyError`; family null:
the unsupported `ApiResultError`).  The recursion into the base pool is
hoisted into `pool_snapshot`, which passes the result in `basepool`. -/
def assemble (env : Env) (meta : PoolMeta) (latest_snapshot : ParamRow)
    (latest_balances : BalanceRow) (basepool : Option PoolSnap)
    (address chain : String) (end_ts : ℤ) : Except Err PoolSnap :=
  let coins_in_pool := if meta.metapool then meta.coins.take 2 else meta.coins
  let coins : CoinsRec :=
    { names := coins_in_pool.map CoinInfo.symbol,
      addresses := coins_in_pool.map (fun info => env.checksum info.address),
      decimals := coins_in_pool.map CoinInfo.decimals,
      wrapper := none }
  let pairs := latest_balances.balances.zip coins.decimals
  let normalized_reserves := pairs.map (fun p => pyint (p.1 * (10 : ℚ) ^ 18))
  let unnormalized_reserves := pairs.map (fun p => pyint (p.1 * (10 : ℚ) ^ p.2))
  let chain_out := (REVERSE_CHAIN_ALIASES.lookup chain).getD chain
  let mkSnap := fun (params : List (String × PVal)) =>
    PoolSnap.mk meta.name (env.checksum address) chain_out meta.name
      meta.pool_type params coins ⟨normalized_reserves, unnormalized_reserves⟩
      basepool end_ts
  match pool_type_to_amm meta.pool_type with
  | none => .error (.keyError meta.pool_type)
  | some fam =>
    if fam = some "stableswap" then
      .ok (mkSnap (stable_params latest_snapshot))
    else if fam = some "cryptoswap" then
      match latest_balances.token_prices with
      | [] => .error .indexError
      | token_price_base :: rest =>
        if token_price_base = 0 then
          .error .zeroDivision
        else
          .ok (mkSnap (crypto_params latest_snapshot token_price_base rest
            latest_balances.timestamp))
    else
      .error (.apiResult (unsupported_msg meta.pool_type))

/-- Assembler `pool_snapshot` from `curve_prices.py`: default the end timestamp to
the current time, form the one-day window, run the three fetches, take
the most recent row of each list, recurse into the base pool for
metapools with the same end timestamp, then assemble.  `now` is the wall
clock; the fuel bounds the base-pool recursion depth. -/
def pool_snapshot (env : Env) (now : ℤ) :
    ℕ → String → String → Option ℤ → Except Err PoolSnap
  | 0, _, _, _ => .error .outOfFuel
  | fuel + 1, address, chain, end_ts_arg =>
    let end_ts := end_ts_arg.getD now
    let snapshot_start := end_ts - (24 * 60 * 60)
    let snapshot_end := end_ts
    match _pool_metadata env address chain with
    | .error e => .error e
    | .ok pool_metadata =>
      match _pool_parameters env address chain snapshot_start snapshot_end with
      | .error e => .error e
      | .ok params_snapshot =>
        match _pool_balances env address chain snapshot_start snapshot_end with
        | .error e => .error e
        | .ok balances_snapshot =>
          match params_snapshot, balances_snapshot with
          | latest_snapshot :: _, latest_balances :: _ =>
            if pool_metadata.metapool then
              match pool_snapshot env now fuel pool_metadata.base_pool chain (some end_ts) with
              | .error e => .error e
              | .ok basepool =>
                assemble env pool_metadata latest_snapshot latest_balances
                  (some basepool) address chain end_ts
            else
              assemble env pool_metadata latest_snapshot latest_balances
                none address chain end_ts
          | _, _ => .error .indexError

/-- The LENDING rewrite inside `from_address`: keep the original coins
record under `wrapper`, replace addresses and decimals by the underlying
tokens (the `web3` collaborator `underlying`), and strip the first
character of each name; any other pool type is returned unchanged. -/
def lending_fix (underlying : List String → List String × List ℕ) :
    PoolSnap → PoolSnap
  | .mk name address chain symbol pool_type params coins reserves basepool timestamp =>
    if pool_type = "LENDING" then
      let u := underlying coins.addresses
      .mk name address chain symbol pool_type params
        { names := coins.names.map (fun n => n.drop 1),
          addresses := u.1,
          decimals := u.2,
          wrapper := some ⟨coins.names, coins.addresses, coins.decimals⟩ }
        reserves basepool timestamp
    else
      .mk name address chain symbol pool_type params coins reserves basepool timestamp

/-- Resolver `from_address` from `metadata.py`: try the subgraph client (the
abstract `primary`, called with the address, chain, subgraph environment
name and end timestamp); on any exception repeat against the Curve
Prices client with the identical address, chain and end timestamp; then
apply the LENDING rewrite to whichever result arrived. -/
def from_address (primary : String → String → String → Option ℤ → Except Err PoolSnap)
    (underlying : List String → List String × List ℕ)
    (env : Env) (now : ℤ) (fuel : ℕ)
    (address chain : String) (envName : String) (end_ts : Option ℤ) :
    Except Err PoolSnap :=
  let data :=
    match primary address chain envName end_ts with
    | .ok d => Except.ok d
    | .error _ => pool_snapshot env now fuel address chain end_ts
  data.map (lending_fix underlying)

/-- Validator `_validate_metadata` from `metadata.py`: rewrite the native-asset
sentinel address to the canonical WETH address in `coins.addresses` and
the placeholder name to the WETH symbol in `coins.names`; all other
fields, and the nested base pool, are untouched. -/
def _validate_metadata : PoolSnap → PoolSnap
  | .mk name address chain symbol pool_type params coins reserves basepool timestamp =>
    let coins_address := coins.addresses.map (fun coin =>
      if coin = "0xEeeeeEeeeEeEeeEeEeEeeEEEeeeeEeeeeeeeEEeE" then
        "0xC02aaA39b223FE8D0A0e5C4F27eAD9083C756Cc2"
      else coin)
    let coin_names := coins.names.map (fun nm => if nm = "0xeeee" then "WETH" else nm)
    .mk name address chain symbol pool_type params
      { coins with addresses := coins_address, names := coin_names }
      reserves basepool timestamp

instance : Inhabited PoolSnap :=
  ⟨.mk "" "" "" "" "" [] ⟨[], [], [], none⟩ ⟨[], []⟩ none 0⟩

/-- Project the snapshot out of a successful resolution result. -/
def resOk : Except Err PoolSnap → PoolSnap
  | .ok s => s
  | .error _ => default

/-- Predicate asserting `P` of a snapshot and, recursively, of every nested base-pool
snapshot. -/
def SnapAll (P : PoolSnap → Prop) : PoolSnap → Prop
  | .mk n a c sy pt pr co re bp ts =>
    P (.mk n a c sy pt pr co re bp ts) ∧
      match bp with
      | none => True
      | some b => SnapAll P b

/-- A provider-side record used to build concrete test backends. -/
structure PoolRecord where
  meta : PoolMeta
  prows : List ParamRow
  brows : List BalanceRow

/-- A concrete backend serving a fixed table of pools on one chain,
ignoring the time window, with identity checksumming. -/
def envOf (chainKey : String) (table : List (String × PoolRecord)) : Env :=
  { checksum := fun a => a,
    metadata := fun c a =>
      if c = chainKey then (table.lookup a).map PoolRecord.meta else none,
    params := fun c a _ _ =>
      if c = chainKey then (table.lookup a).map PoolRecord.prows else none,
    balances := fun c a _ _ _ =>
      if c = chainKey then (table.lookup a).map PoolRecord.brows else none }

/-- Concrete stableswap metadata used by witnesses. -/
def meta_stable : PoolMeta :=
  ⟨"Pool A", "main", false, "", [⟨"USDC", "0xA1", 6⟩, ⟨"DAI", "0xA2", 18⟩],
    some "0.2.16", some "0xT1", some 100⟩

/-- Concrete parameter row used by witnesses. -/
def prow_stable : ParamRow :=
  ⟨100, 4000000, none, 5000000000, 1000000000000000000,
    0, 0, 0, 0, 0, 0, 0, [], [], 0, 0⟩

/-- Concrete balance row with a fractional balance. -/
def brow_stable : BalanceRow := ⟨[5, 7 / 2], [1, 1], 900⟩

/-- Backend serving one plain stableswap pool at address 0xP. -/
def env_stable : Env :=
  envOf "ethereum" [("0xP", ⟨meta_stable, [prow_stable], [brow_stable]⟩)]

/-- Concrete base-pool metadata. -/
def meta_base : PoolMeta :=
  ⟨"Base", "main", false, "", [⟨"USDT", "0xB1", 6⟩, ⟨"DAI", "0xB2", 18⟩],
    some "0.2.16", some "0xT2", some 99⟩

/-- Concrete metapool metadata: flattened three-coin list, base pool 0xB. -/
def meta_meta : PoolMeta :=
  ⟨"Meta", "factory", true, "0xB",
    [⟨"GUSD", "0xM1", 2⟩, ⟨"LP", "0xL1", 18⟩, ⟨"USDT", "0xB1", 6⟩],
    some "0.3.1", some "0xT3", some 101⟩

/-- Balance row for the metapool (flattened, three balances). -/
def brow_meta : BalanceRow := ⟨[2, 3, 4], [1, 1, 1], 901⟩

/-- Backend serving the metapool 0xM and its base pool 0xB. -/
def env_meta : Env :=
  envOf "ethereum"
    [("0xM", ⟨meta_meta, [prow_stable], [brow_meta]⟩),
     ("0xB", ⟨meta_base, [prow_stable], [brow_stable]⟩)]

/-- Concrete cryptoswap metadata. -/
def meta_crypto : PoolMeta :=
  ⟨"Crypto", "crypto", false, "", [⟨"WETH", "0xC1", 18⟩, ⟨"WBTC", "0xC2", 8⟩],
    some "0.3.0", some "0xT4", some 102⟩

/-- Concrete cryptoswap parameter row with distinct field values. -/
def prow_crypto : ParamRow :=
  ⟨200, 3, none, 4, 5, 6, 7, 8, 9, 10, 11, 12, [13], [14], 15, 16⟩

/-- Balance row for the cryptoswap pool: base token price 2, one
secondary price 3. -/
def brow_crypto : BalanceRow := ⟨[1, 2], [2, 3], 902⟩

/-- Backend serving one cryptoswap pool at address 0xC. -/
def env_crypto : Env :=
  envOf "ethereum" [("0xC", ⟨meta_crypto, [prow_crypto], [brow_crypto]⟩)]

/-- Metadata whose pool type is the listed-but-unsupported crvusd tag. -/
def meta_crvusd : PoolMeta :=
  ⟨"CrvUsd", "crvusd", false, "", [⟨"crvUSD", "0xD1", 18⟩, ⟨"USDC", "0xD2", 6⟩],
    some "0.3.7", some "0xT5", some 103⟩

/-- Backend serving the crvusd pool at address 0xU. -/
def env_crvusd : Env :=
  envOf "ethereum" [("0xU", ⟨meta_crvusd, [prow_stable], [brow_stable]⟩)]

/-- Metadata whose pool type is a tag absent from `pool_type_to_amm`. -/
def meta_unlisted : PoolMeta :=
  ⟨"Odd", "zap", false, "", [⟨"AAA", "0xE1", 18⟩],
    some "0.2.12", some "0xT6", some 104⟩

/-- Backend serving the unlisted-tag pool at address 0xZ. -/
def env_unlisted : Env :=
  envOf "ethereum" [("0xZ", ⟨meta_unlisted, [prow_stable], [brow_stable]⟩)]

/-- Backend whose balance row is shorter than the coin list: the pool at
0xS has two coins but the provider reports a single balance. -/
def env_short : Env :=
  envOf "ethereum"
    [("0xS", ⟨⟨"Short", "main", false, "", [⟨"USDC", "0xF1", 6⟩, ⟨"DAI", "0xF2", 18⟩],
      some "0.2.16", some "0xT7", some 105⟩, [prow_stable], [⟨[5], [1], 903⟩]⟩)]

/-- A primary (subgraph) client that always fails with a transport
error. -/
def primary_down : String → String → String → Option ℤ → Except Err PoolSnap :=
  fun _ _ _ _ => .error .http

/-- A snapshot of a LENDING pool as the subgraph client would return
it, before underlying-coin resolution. -/
def snap_lending : PoolSnap :=
  .mk "LendPool" "0xL" "mainnet" "LendPool" "LENDING" []
    ⟨["cUSDC", "cDAI"], ["0xW1", "0xW2"], [8, 8], none⟩ ⟨[10], [10]⟩ none 900

/-- A primary (subgraph) client that returns `snap_lending`. -/
def primary_lending : String → String → String → Option ℤ → Except Err PoolSnap :=
  fun _ _ _ _ => .ok snap_lending

/-- A concrete `web3` underlying-coin resolver. -/
def underlying_table : List String → List String × List ℕ :=
  fun _ => (["0xN1", "0xN2"], [6, 18])

/-- Whether a resolution result is a snapshot rather than an error. -/
def resolution_succeeded : Except Err PoolSnap → Bool
  | .ok _ => true
  | .error _ => false

/-- The error `pool_snapshot` raises for a pool family outside
stableswap and cryptoswap: the unsupported-family `ApiResultError` when
the tag is listed but maps to null, a `KeyError` when it is unlisted. -/
def family_lookup_error (pool_type : String) : Err :=
  match pool_type_to_amm pool_type with
  | some none => .apiResult (unsupported_msg pool_type)
  | _ => .keyError pool_type

/-- The equal-length invariant over the five parallel arrays of one
snapshot. -/
def len_invariant (s : PoolSnap) : Prop :=
  s.coins.names.length = s.coins.addresses.length ∧
  s.coins.addresses.length = s.coins.decimals.length ∧
  s.coins.decimals.length = s.reserves.by_coin.length ∧
  s.reserves.by_coin.length = s.reserves.unnormalized_by_coin.length

/-- The provider alignment assumption: every balance row a backend
returns for a pool carries at least as many balances as that pool's
metadata coin list. -/
def balances_cover (env : Env) : Prop :=
  ∀ c a meta, env.metadata c a = some meta →
    ∀ s e u rows, env.balances c a s e u = some rows →
      ∀ row ∈ rows, meta.coins.length ≤ row.balances.length

/-- The key list of the stableswap params dict. -/
def stable_keys : List String := ["A", "fee", "fee_mul", "admin_fee", "virtual_price"]

/-- The key list of the cryptoswap params dict: sixteen named fields. -/
def crypto_keys : List String :=
  ["A", "gamma", "fee_gamma", "mid_fee", "out_fee", "allowed_extra_profit",
   "adjustment_step", "ma_half_time", "price_scale", "price_oracle", "last_prices",
   "last_prices_timestamp", "admin_fee", "xcp_profit", "xcp_profit_a", "virtual_price"]

/-- A successful `assemble` fixes every non-params field of the
snapshot: names, chain back-translation, the truncated coin arrays, the
zip-built reserve arrays, and the base pool passed through. -/
theorem assemble_ok_fields {env : Env} {meta : PoolMeta} {lr : ParamRow}
    {br : BalanceRow} {bp : Option PoolSnap} {a c : String} {t : ℤ} {s : PoolSnap}
    (h : assemble env meta lr br bp a c t = .ok s) :
    s.name = meta.name ∧ s.symbol = meta.name ∧ s.address = env.checksum a ∧
    s.chain = (REVERSE_CHAIN_ALIASES.lookup c).getD c ∧
    s.pool_type = meta.pool_type ∧ s.basepool = bp ∧ s.timestamp = t ∧
    s.coins.names =
      (if meta.metapool then meta.coins.take 2 else meta.coins).map CoinInfo.symbol ∧
    s.coins.addresses =
      (if meta.metapool then meta.coins.take 2 else meta.coins).map
        (fun info => env.checksum info.address) ∧
    s.coins.decimals =
      (if meta.metapool then meta.coins.take 2 else meta.coins).map CoinInfo.decimals ∧
    s.coins.wrapper = none ∧
    s.reserves.by_coin =
      (br.balances.zip
        ((if meta.metapool then meta.coins.take 2 else meta.coins).map CoinInfo.decimals)).map
        (fun p => pyint (p.1 * (10 : ℚ) ^ 18)) ∧
    s.reserves.unnormalized_by_coin =
      (br.balances.zip
        ((if meta.metapool then meta.coins.take 2 else meta.coins).map CoinInfo.decimals)).map
        (fun p => pyint (p.1 * (10 : ℚ) ^ p.2)) := by
  simp only [assemble] at h
  split at h
  · exact Except.noConfusion h
  · split at h
    · injection h with h
      subst h
      exact ⟨rfl, rfl, rfl, rfl, rfl, rfl, rfl, rfl, rfl, rfl, rfl, rfl, rfl⟩
    · split at h
      · split at h
        · exact Except.noConfusion h
        · split at h
          · exact Except.noConfusion h
          · injection h with h
            subst h
            exact ⟨rfl, rfl, rfl, rfl, rfl, rfl, rfl, rfl, rfl, rfl, rfl, rfl, rfl⟩
      · exact Except.noConfusion h

/-- Inversion of one successful step of `pool_snapshot`: the three
fetches succeeded with non-empty row lists, the base pool was resolved
recursively exactly when the metadata flags a metapool, and the snapshot
is the assembly of the most recent rows. -/
theorem pool_snapshot_ok_inv {env : Env} {now : ℤ} {fuel : ℕ}
    {address chain : String} {ts : Option ℤ} {s : PoolSnap}
    (h : pool_snapshot env now (fuel + 1) address chain ts = .ok s) :
    ∃ meta prest brest bp, ∃ prow : ParamRow, ∃ brow : BalanceRow,
      _pool_metadata env address chain = .ok meta ∧
      _pool_parameters env address chain (ts.getD now - (24 * 60 * 60)) (ts.getD now) =
        .ok (prow :: prest) ∧
      _pool_balances env address chain (ts.getD now - (24 * 60 * 60)) (ts.getD now) =
        .ok (brow :: brest) ∧
      ((∃ b, meta.metapool = true ∧
          pool_snapshot env now fuel meta.base_pool chain (some (ts.getD now)) = .ok b ∧
          bp = some b) ∨
        (meta.metapool = false ∧ bp = none)) ∧
      assemble env meta prow brow bp address chain (ts.getD now) = .ok s := by
  simp only [pool_snapshot] at h
  cases hmeta : _pool_metadata env address chain with
  | error e => rw [hmeta] at h; exact Except.noConfusion h
  | ok meta =>
    rw [hmeta] at h
    dsimp only at h
    cases hpar : _pool_parameters env address chain (ts.getD now - (24 * 60 * 60))
        (ts.getD now) with
    | error e => rw [hpar] at h; exact Except.noConfusion h
    | ok prows =>
      rw [hpar] at h
      dsimp only at h
      cases hbal : _pool_balances env address chain (ts.getD now - (24 * 60 * 60))
          (ts.getD now) with
      | error e => rw [hbal] at h; exact Except.noConfusion h
      | ok brows =>
        rw [hbal] at h
        dsimp only at h
        match prows, brows with
        | [], _ => exact Except.noConfusion h
        | _ :: _, [] => exact Except.noConfusion h
        | prow :: prest, brow :: brest =>
          dsimp only at h
          cases hmp : meta.metapool with
          | false =>
            rw [hmp] at h
            exact ⟨meta, prest, brest, none, prow, brow, rfl, rfl, rfl,
              Or.inr ⟨hmp, rfl⟩, h⟩
          | true =>
            rw [hmp] at h
            cases hrec : pool_snapshot env now fuel meta.base_pool chain
                (some (ts.getD now)) with
            | error e =>
              rw [hrec] at h
              exact Except.noConfusion h
            | ok b =>
              rw [hrec] at h
              exact ⟨meta, prest, brest, some b, prow, brow, rfl, rfl, rfl,
                Or.inl ⟨b, hmp, hrec, rfl⟩, h⟩

/-- Inversion of a successful metadata fetch: the backend served the
record at the canonical chain id and checksummed address, and all
deployment fields were present. -/
theorem _pool_metadata_ok_inv {env : Env} {address chain : String} {meta : PoolMeta}
    (h : _pool_metadata env address chain = .ok meta) :
    env.metadata (_chain_from_alias chain) (env.checksum address) = some meta := by
  simp only [_pool_metadata] at h
  cases hx : env.metadata (_chain_from_alias chain) (env.checksum address) with
  | none => rw [hx] at h; exact Except.noConfusion h
  | some d =>
    rw [hx] at h
    dsimp only at h
    split at h
    · exact Except.noConfusion h
    · injection h with h
      rw [h]

/-- Inversion of a successful balances fetch: the backend served that
non-empty row list for the one-day window with the default unit. -/
theorem _pool_balances_ok_inv {env : Env} {address chain : String} {s e : ℤ}
    {rows : List BalanceRow}
    (h : _pool_balances env address chain s e = .ok rows) :
    env.balances (_chain_from_alias chain) (env.checksum address) s e "day" = some rows := by
  simp only [_pool_balances] at h
  cases hx : env.balances (_chain_from_alias chain) (env.checksum address) s e "day" with
  | none => rw [hx] at h; exact Except.noConfusion h
  | some data =>
    rw [hx] at h
    match data, h with
    | [], h => exact Except.noConfusion h
    | d :: ds, h =>
      dsimp only at h
      injection h with h
      rw [h]

/-- Introduction rule for `SnapAll`. -/
theorem snapAll_intro (P : PoolSnap → Prop) (s : PoolSnap) (h1 : P s)
    (h2 : ∀ b, s.basepool = some b → SnapAll P b) : SnapAll P s := by
  cases s with
  | mk n a c sy pt pr co re bp ts =>
    unfold SnapAll
    refine ⟨h1, ?_⟩
    cases bp with
    | none => exact trivial
    | some b => exact h2 b rfl

/-- A successful `assemble` fixes the params dict per family: the
stableswap dict verbatim, and for cryptoswap the dict built from a
non-empty token-price list with a non-zero base price. -/
theorem assemble_params {env : Env} {meta : PoolMeta} {lr : ParamRow}
    {br : BalanceRow} {bp : Option PoolSnap} {a c : String} {t : ℤ} {s : PoolSnap}
    (h : assemble env meta lr br bp a c t = .ok s) :
    (pool_type_to_amm meta.pool_type = some (some "stableswap") →
      s.params = stable_params lr) ∧
    (pool_type_to_amm meta.pool_type = some (some "cryptoswap") →
      ∃ p0 rest, br.token_prices = p0 :: rest ∧ ¬p0 = 0 ∧
        s.params = crypto_params lr p0 rest br.timestamp) := by
  simp only [assemble] at h
  cases hf : pool_type_to_amm meta.pool_type with
  | none =>
    rw [hf] at h
    exact Except.noConfusion h
  | some fam =>
    rw [hf] at h
    dsimp only at h
    by_cases h1 : fam = some "stableswap"
    · rw [if_pos h1] at h
      injection h with h
      subst h
      subst h1
      constructor
      · intro _
        rfl
      · intro hc
        injection hc with hc
        exact absurd hc (by decide)
    · rw [if_neg h1] at h
      by_cases h2 : fam = some "cryptoswap"
      · rw [if_pos h2] at h
        cases htp : br.token_prices with
        | nil => rw [htp] at h; exact Except.noConfusion h
        | cons p0 rest =>
          rw [htp] at h
          dsimp only at h
          by_cases hz : p0 = 0
          · rw [if_pos hz] at h
            exact Except.noConfusion h
          · rw [if_neg hz] at h
            injection h with h
            subst h
            subst h2
            constructor
            · intro hc
              injection hc with hc
              exact absurd hc (by decide)
            · intro _
              exact ⟨p0, rest, rfl, hz, rfl⟩
      · rw [if_neg h2] at h
        exact Except.noConfusion h

/-- C1: when the primary data source fails on its fetch sequence, the
whole resolution is repeated against the secondary source with the
identical address, chain and end-timestamp arguments; the returned value
is the secondary's result (post LENDING rewrite), never a partial
primary result, and a secondary failure propagates to the caller with no
further fallback tier. -/
theorem C1_fallback_repeats_on_secondary
    (primary : String → String → String → Option ℤ → Except Err PoolSnap)
    (underlying : List String → List String × List ℕ)
    (env : Env) (now : ℤ) (fuel : ℕ) (address chain envName : String)
    (end_ts : Option ℤ) (e : Err)
    (h : primary address chain envName end_ts = .error e) :
    from_address primary underlying env now fuel address chain envName end_ts =
      (pool_snapshot env now fuel address chain end_ts).map (lending_fix underlying) ∧
    (∀ e2, pool_snapshot env now fuel address chain end_ts = .error e2 →
      from_address primary underlying env now fuel address chain envName end_ts =
        .error e2) := by
  constructor
  · unfold from_address
    rw [h]
  · intro e2 h2
    unfold from_address
    rw [h, h2]
    rfl

/-- Witness for C1 at a concrete failing primary and the stableswap
backend. -/
theorem C1_fallback_repeats_on_secondary_witness :
    primary_down "0xP" "mainnet" "prod" (some 1000) = .error .http ∧
    from_address primary_down underlying_table env_stable 900 1 "0xP" "mainnet" "prod"
        (some 1000) =
      (pool_snapshot env_stable 900 1 "0xP" "mainnet" (some 1000)).map
        (lending_fix underlying_table) :=
  ⟨rfl,
    (C1_fallback_repeats_on_secondary primary_down underlying_table env_stable 900 1
      "0xP" "mainnet" "prod" (some 1000) .http rfl).1⟩

/-- C8: the validation pass rewrites every occurrence of the native-asset
sentinel address to the canonical WETH address and every placeholder name
to the WETH symbol, leaves every other coin entry and every other
snapshot field unchanged, and does not recurse into the nested base
pool. -/
theorem C8_validate_sentinel_rewrite (s : PoolSnap) :
    (_validate_metadata s).coins.addresses =
      s.coins.addresses.map (fun coin =>
        if coin = "0xEeeeeEeeeEeEeeEeEeEeeEEEeeeeEeeeeeeeEEeE" then
          "0xC02aaA39b223FE8D0A0e5C4F27eAD9083C756Cc2"
        else coin) ∧
    (_validate_metadata s).coins.names =
      s.coins.names.map (fun nm => if nm = "0xeeee" then "WETH" else nm) ∧
    (_validate_metadata s).coins.decimals = s.coins.decimals ∧
    (_validate_metadata s).coins.wrapper = s.coins.wrapper ∧
    (_validate_metadata s).name = s.name ∧
    (_validate_metadata s).address = s.address ∧
    (_validate_metadata s).chain = s.chain ∧
    (_validate_metadata s).symbol = s.symbol ∧
    (_validate_metadata s).pool_type = s.pool_type ∧
    (_validate_metadata s).params = s.params ∧
    (_validate_metadata s).reserves = s.reserves ∧
    (_validate_metadata s).timestamp = s.timestamp ∧
    (_validate_metadata s).basepool = s.basepool := by
  cases s with
  | mk n a c sy pt pr co re bp ts =>
    exact ⟨rfl, rfl, rfl, rfl, rfl, rfl, rfl, rfl, rfl, rfl, rfl, rfl, rfl⟩

/-- C9: a resolved pool of type LENDING gets its coins record rewritten:
the original wrapped names, addresses and decimals are kept under
`wrapper`, addresses and decimals are replaced by the underlying tokens'
values, and each name loses its first character; any other pool type is
returned with its coins record unchanged and no wrapper. -/
theorem C9_lending_underlying_rewrite
    (primary : String → String → String → Option ℤ → Except Err PoolSnap)
    (underlying : List String → List String × List ℕ)
    (env : Env) (now : ℤ) (fuel : ℕ) (address chain envName : String)
    (end_ts : Option ℤ) (d : PoolSnap)
    (h : primary address chain envName end_ts = .ok d) :
    from_address primary underlying env now fuel address chain envName end_ts =
      .ok (lending_fix underlying d) ∧
    (d.pool_type = "LENDING" →
      (lending_fix underlying d).coins =
        ⟨d.coins.names.map (fun n => n.drop 1), (underlying d.coins.addresses).1,
          (underlying d.coins.addresses).2,
          some ⟨d.coins.names, d.coins.addresses, d.coins.decimals⟩⟩ ∧
      (lending_fix underlying d).name = d.name ∧
      (lending_fix underlying d).address = d.address ∧
      (lending_fix underlying d).chain = d.chain ∧
      (lending_fix underlying d).symbol = d.symbol ∧
      (lending_fix underlying d).pool_type = d.pool_type ∧
      (lending_fix underlying d).params = d.params ∧
      (lending_fix underlying d).reserves = d.reserves ∧
      (lending_fix underlying d).basepool = d.basepool ∧
      (lending_fix underlying d).timestamp = d.timestamp) ∧
    (¬d.pool_type = "LENDING" → lending_fix underlying d = d) := by
  refine ⟨?_, ?_, ?_⟩
  · unfold from_address
    rw [h]
    rfl
  · intro hl
    cases d with
    | mk n a c sy pt pr co re bp ts =>
      replace hl : pt = "LENDING" := hl
      simp only [lending_fix, hl, if_pos]
      exact ⟨rfl, rfl, rfl, rfl, rfl, rfl, rfl, rfl, rfl, rfl⟩
  · intro hl
    cases d with
    | mk n a c sy pt pr co re bp ts =>
      replace hl : ¬pt = "LENDING" := hl
      simp only [lending_fix, hl, if_neg, ite_false]

/-- Witness for C9 at a concrete primary returning a LENDING pool. -/
theorem C9_lending_underlying_rewrite_witness :
    from_address primary_lending underlying_table env_stable 900 1 "0xL" "mainnet" "prod"
        (some 1000) =
      .ok (lending_fix underlying_table snap_lending) ∧
    (lending_fix underlying_table snap_lending).coins =
      ⟨["USDC", "DAI"], ["0xN1", "0xN2"], [6, 18],
        some ⟨["cUSDC", "cDAI"], ["0xW1", "0xW2"], [8, 8]⟩⟩ :=
  ⟨(C9_lending_underlying_rewrite primary_lending underlying_table env_stable 900 1
      "0xL" "mainnet" "prod" (some 1000) snap_lending rfl).1,
    (((C9_lending_underlying_rewrite primary_lending underlying_table env_stable 900 1
      "0xL" "mainnet" "prod" (some 1000) snap_lending rfl).2.1 rfl).1).trans (by decide)⟩

/-- Counterexample to C7: a caller supplying the canonical identifier
"ethereum" (which has no alias-table entry as an alias) receives a
snapshot whose chain field is "mainnet", not the identifier it
supplied. -/
theorem C7_counterexample :
    resolution_succeeded (pool_snapshot env_stable 900 1 "0xP" "ethereum" (some 1000)) =
      true ∧
    (resOk (pool_snapshot env_stable 900 1 "0xP" "ethereum" (some 1000))).chain =
      "mainnet" ∧
    ¬("mainnet" = "ethereum") :=
  ⟨rfl, rfl, by decide⟩

/-- C7 amended: request lookups use the canonical identifier obtained by
alias resolution, identifiers with no alias pass through unchanged and
alias resolution is idempotent; the snapshot's chain field is the
caller-supplied identifier translated through the reverse alias table
whenever it has an entry there — so a caller supplying a canonical
identifier with an alias (e.g. "ethereum") gets the alias back, not the
identifier it supplied. -/
theorem C7_chain_field (env : Env) (now : ℤ) (fuel : ℕ) (address chain : String)
    (ts : Option ℤ) (s : PoolSnap)
    (h : pool_snapshot env now fuel address chain ts = .ok s) :
    s.chain = (REVERSE_CHAIN_ALIASES.lookup chain).getD chain ∧
    (CHAIN_ALIASES.lookup chain = none → _chain_from_alias chain = chain) ∧
    _chain_from_alias (_chain_from_alias chain) = _chain_from_alias chain := by
  cases fuel with
  | zero => exact absurd h (by simp [pool_snapshot])
  | succ fuel =>
    obtain ⟨meta, prest, brest, bp, prow, brow, hm, hp, hb, hbp, hasm⟩ :=
      pool_snapshot_ok_inv h
    obtain ⟨-, -, -, hchain, -⟩ := assemble_ok_fields hasm
    refine ⟨hchain, ?_, ?_⟩
    · intro hn
      simp [_chain_from_alias, hn]
    · by_cases h1 : chain = "mainnet"
      · subst h1; rfl
      · by_cases h2 : chain = "matic"
        · subst h2; rfl
        · have e1 : (chain == "mainnet") = false := by simp [h1]
          have e2 : (chain == "matic") = false := by simp [h2]
          have hl : CHAIN_ALIASES.lookup chain = none := by
            simp only [CHAIN_ALIASES, List.lookup, e1, e2]
          simp [_chain_from_alias, hl]

/-- Witness for C7 amended at the concrete stableswap backend and the
alias-supplying caller. -/
theorem C7_chain_field_witness :
    (resOk (pool_snapshot env_stable 900 1 "0xP" "mainnet" (some 1000))).chain =
      (REVERSE_CHAIN_ALIASES.lookup "mainnet").getD "mainnet" ∧
    _chain_from_alias (_chain_from_alias "mainnet") = _chain_from_alias "mainnet" :=
  ⟨(C7_chain_field env_stable 900 1 "0xP" "mainnet" (some 1000)
      (resOk (pool_snapshot env_stable 900 1 "0xP" "mainnet" (some 1000))) (by rfl)).1,
    (C7_chain_field env_stable 900 1 "0xP" "mainnet" (some 1000)
      (resOk (pool_snapshot env_stable 900 1 "0xP" "mainnet" (some 1000))) (by rfl)).2.2⟩

/-- Counterexample to C2: a pool whose `pool_type` tag is absent from the
family table ("zap") makes resolution fail with a `KeyError` on the
table lookup, not with the unsupported-pool-family `ApiResultError`. -/
theorem C2_counterexample :
    pool_snapshot env_unlisted 900 1 "0xZ" "mainnet" (some 1000) =
      .error (.keyError "zap") ∧
    ¬(Err.keyError "zap" = Err.apiResult (unsupported_msg "zap")) :=
  ⟨rfl, by decide⟩

/-- C2 amended: a pool whose `pool_type` maps to no AMM family fails
resolution — with the unsupported-pool-family `ApiResultError` when the
tag is listed but mapped to null ("crvusd"), and with a `KeyError` when
the tag is unlisted — and `from_address` propagates this secondary-side
error to the caller unchanged (fallback only reacts to primary
failures; it is the primary failure, of any kind, that triggered the
secondary attempt). -/
theorem C2_unsupported_family
    (primary : String → String → String → Option ℤ → Except Err PoolSnap)
    (underlying : List String → List String × List ℕ)
    (env : Env) (now : ℤ) (fuel : ℕ) (address chain envName : String) (τ : ℤ)
    (meta : PoolMeta) (prow : ParamRow) (brow : BalanceRow)
    (prest : List ParamRow) (brest : List BalanceRow) (e : Err)
    (hm : _pool_metadata env address chain = .ok meta)
    (hp : _pool_parameters env address chain (τ - 86400) τ = .ok (prow :: prest))
    (hb : _pool_balances env address chain (τ - 86400) τ = .ok (brow :: brest))
    (hmp : meta.metapool = false)
    (hfam : pool_type_to_amm meta.pool_type = some none ∨
      pool_type_to_amm meta.pool_type = none)
    (hprim : primary address chain envName (some τ) = .error e) :
    pool_snapshot env now (fuel + 1) address chain (some τ) =
      .error (family_lookup_error meta.pool_type) ∧
    from_address primary underlying env now (fuel + 1) address chain envName (some τ) =
      .error (family_lookup_error meta.pool_type) := by
  have hps : pool_snapshot env now (fuel + 1) address chain (some τ) =
      .error (family_lookup_error meta.pool_type) := by
    rcases hfam with hf | hf
    · simp [pool_snapshot, hm, hp, hb, hmp, assemble, family_lookup_error, hf]
    · simp [pool_snapshot, hm, hp, hb, hmp, assemble, family_lookup_error, hf]
  refine ⟨hps, ?_⟩
  unfold from_address
  rw [hprim, hps]
  rfl

/-- Witness for C2 amended at the concrete crvusd backend. -/
theorem C2_unsupported_family_witness :
    pool_snapshot env_crvusd 900 1 "0xU" "mainnet" (some 1000) =
      .error (family_lookup_error "crvusd") ∧
    from_address primary_down underlying_table env_crvusd 900 1 "0xU" "mainnet" "prod"
        (some 1000) =
      .error (family_lookup_error "crvusd") :=
  C2_unsupported_family primary_down underlying_table env_crvusd 900 0 "0xU" "mainnet"
    "prod" 1000 meta_crvusd prow_stable brow_stable [] [] .http (by rfl) (by rfl)
    (by rfl) rfl (Or.inl rfl) rfl

/-- C3: a pool whose metadata marks it a metapool gets its top-level
coin arrays restricted to the first two provider entries (hence exactly
2 entries when the provider lists at least 2) and a non-null basepool
obtained by recursively resolving the base pool's address with the same
end timestamp; a non-metapool keeps the full coin list and a null
basepool. -/
theorem C3_metapool_truncation_and_recursion
    (env : Env) (now : ℤ) (fuel : ℕ) (address chain : String) (ts : Option ℤ)
    (s : PoolSnap) (meta : PoolMeta)
    (h : pool_snapshot env now (fuel + 1) address chain ts = .ok s)
    (hm : _pool_metadata env address chain = .ok meta) :
    (meta.metapool = true →
      s.coins.names = (meta.coins.take 2).map CoinInfo.symbol ∧
      s.coins.addresses = (meta.coins.take 2).map (fun info => env.checksum info.address) ∧
      s.coins.decimals = (meta.coins.take 2).map CoinInfo.decimals ∧
      (2 ≤ meta.coins.length → s.coins.names.length = 2) ∧
      ∃ b, s.basepool = some b ∧
        pool_snapshot env now fuel meta.base_pool chain (some (ts.getD now)) = .ok b) ∧
    (meta.metapool = false →
      s.basepool = none ∧
      s.coins.names = meta.coins.map CoinInfo.symbol ∧
      s.coins.addresses = meta.coins.map (fun info => env.checksum info.address) ∧
      s.coins.decimals = meta.coins.map CoinInfo.decimals) := by
  obtain ⟨meta2, prest, brest, bp, prow, brow, hm2, hp2, hb2, hbp, hasm⟩ :=
    pool_snapshot_ok_inv h
  rw [hm] at hm2
  injection hm2 with hm2
  subst hm2
  obtain ⟨hname, hsym, haddr, hchain, hpt, hbpool, hts, hcn, hca, hcd, hw, hby, hun⟩ :=
    assemble_ok_fields hasm
  constructor
  · intro hmp
    rcases hbp with ⟨b, hmpt, hrec, rfl⟩ | ⟨hmpf, _⟩
    · refine ⟨?_, ?_, ?_, ?_, b, hbpool, hrec⟩
      · rw [hcn, if_pos hmp]
      · rw [hca, if_pos hmp]
      · rw [hcd, if_pos hmp]
      · intro hlen
        rw [hcn, if_pos hmp, List.length_map, List.length_take]
        exact Nat.min_eq_left hlen
    · rw [hmpf] at hmp
      exact absurd hmp (by decide)
  · intro hmpf
    have hneg : ¬(meta.metapool = true) := by simp [hmpf]
    rcases hbp with ⟨b, hmpt, _, _⟩ | ⟨_, rfl⟩
    · exact absurd hmpt hneg
    · refine ⟨hbpool, ?_, ?_, ?_⟩
      · rw [hcn, if_neg hneg]
      · rw [hca, if_neg hneg]
      · rw [hcd, if_neg hneg]

/-- Witness for C3 at the concrete metapool backend. -/
theorem C3_metapool_truncation_and_recursion_witness :
    (resOk (pool_snapshot env_meta 900 2 "0xM" "mainnet" (some 1000))).coins.names =
      ["GUSD", "LP"] ∧
    (resOk (pool_snapshot env_meta 900 2 "0xM" "mainnet" (some 1000))).coins.names.length =
      2 ∧
    (resOk (pool_snapshot env_meta 900 2 "0xM" "mainnet" (some 1000))).basepool =
      some (resOk (pool_snapshot env_meta 900 1 "0xB" "mainnet" (some 1000))) := by
  have h := C3_metapool_truncation_and_recursion env_meta 900 1 "0xM" "mainnet"
    (some 1000) (resOk (pool_snapshot env_meta 900 2 "0xM" "mainnet" (some 1000)))
    meta_meta (by rfl) (by rfl)
  obtain ⟨hn, -, -, hlen, hb⟩ := h.1 rfl
  obtain ⟨b, hb1, hb2⟩ := hb
  have hb3 : pool_snapshot env_meta 900 1 "0xB" "mainnet" (some 1000) = Except.ok b := hb2
  refine ⟨hn.trans (by decide), hlen (by decide), ?_⟩
  rw [hb3]
  exact hb1

/-- Counterexample to C6: the cryptoswap params dict resolved from the
code has sixteen keys, not fourteen. -/
theorem C6_counterexample :
    resolution_succeeded (pool_snapshot env_crypto 900 1 "0xC" "mainnet" (some 1000)) =
      true ∧
    ((resOk (pool_snapshot env_crypto 900 1 "0xC" "mainnet" (some 1000))).params.map
        Prod.fst).length = 16 ∧
    ¬((resOk (pool_snapshot env_crypto 900 1 "0xC" "mainnet" (some 1000))).params.map
        Prod.fst).length = 14 :=
  ⟨rfl, rfl, by decide⟩

/-- C6 amended: the params field set is fully determined by the pool
family — a stableswap-family pool yields exactly the five keys A, fee,
fee_mul, admin_fee, virtual_price with fee_mul null exactly when the
provider reports the multiplier as null, and a cryptoswap-family pool
yields exactly the sixteen (not fourteen) cryptoswap keys — with no
extra or missing keys in either case. -/
theorem C6_params_by_family
    (env : Env) (now : ℤ) (fuel : ℕ) (address chain : String) (ts : Option ℤ)
    (s : PoolSnap) (meta : PoolMeta) (prow : ParamRow) (prest : List ParamRow)
    (h : pool_snapshot env now (fuel + 1) address chain ts = .ok s)
    (hm : _pool_metadata env address chain = .ok meta)
    (hp : _pool_parameters env address chain (ts.getD now - (24 * 60 * 60)) (ts.getD now) =
      .ok (prow :: prest)) :
    (pool_type_to_amm meta.pool_type = some (some "stableswap") →
      s.params = stable_params prow ∧
      s.params.map Prod.fst = stable_keys ∧
      (prow.offpeg_fee_multiplier = none → s.params.lookup "fee_mul" = some .null) ∧
      (∀ v, prow.offpeg_fee_multiplier = some v →
        s.params.lookup "fee_mul" = some (.int v))) ∧
    (pool_type_to_amm meta.pool_type = some (some "cryptoswap") →
      s.params.map Prod.fst = crypto_keys ∧ crypto_keys.length = 16) := by
  obtain ⟨meta2, prest2, brest, bp, prow2, brow, hm2, hp2, hb2, hbp, hasm⟩ :=
    pool_snapshot_ok_inv h
  rw [hm] at hm2
  injection hm2 with hm2
  subst hm2
  rw [hp] at hp2
  injection hp2 with hp2
  injection hp2 with hp2a hp2b
  subst hp2a
  subst hp2b
  obtain ⟨hstab, hcryp⟩ := assemble_params hasm
  constructor
  · intro hf
    have hsp := hstab hf
    refine ⟨hsp, ?_, ?_, ?_⟩
    · rw [hsp]; rfl
    · intro hnone
      rw [hsp]
      simp [stable_params, hnone, List.lookup]
    · intro v hv
      rw [hsp]
      simp [stable_params, hv, List.lookup]
  · intro hf
    obtain ⟨p0, rest, htp, hz, hcp⟩ := hcryp hf
    refine ⟨?_, rfl⟩
    rw [hcp]
    rfl

/-- Witness for C6 amended at the concrete cryptoswap backend. -/
theorem C6_params_by_family_witness :
    (resOk (pool_snapshot env_crypto 900 1 "0xC" "mainnet" (some 1000))).params.map
        Prod.fst = crypto_keys ∧
    crypto_keys.length = 16 :=
  (C6_params_by_family env_crypto 900 0 "0xC" "mainnet" (some 1000)
    (resOk (pool_snapshot env_crypto 900 1 "0xC" "mainnet" (some 1000)))
    meta_crypto prow_crypto [] (by rfl) (by rfl) (by rfl)).2 (by rfl)

/-- Python `int` truncation agrees with `floor` on nonnegative values. -/
theorem pyint_of_nonneg {q : ℚ} (h : 0 ≤ q) : pyint q = ⌊q⌋ := if_pos h

/-- C5: every normalized reserve is the floor of the provider balance
scaled by 10^18 and every raw reserve the floor of the same balance
scaled by the coin's own decimals, both taken from the single chosen
balance row. -/
theorem C5_reserve_scaling
    (env : Env) (now : ℤ) (fuel : ℕ) (address chain : String) (ts : Option ℤ)
    (s : PoolSnap) (brow : BalanceRow) (brest : List BalanceRow)
    (h : pool_snapshot env now (fuel + 1) address chain ts = .ok s)
    (hb : _pool_balances env address chain (ts.getD now - (24 * 60 * 60)) (ts.getD now) =
      .ok (brow :: brest))
    (i : ℕ) (b : ℚ) (d : ℕ)
    (hbi : brow.balances[i]? = some b)
    (hdi : s.coins.decimals[i]? = some d)
    (hpos : 0 ≤ b) :
    s.reserves.by_coin[i]? = some ⌊b * (10 : ℚ) ^ 18⌋ ∧
    s.reserves.unnormalized_by_coin[i]? = some ⌊b * (10 : ℚ) ^ d⌋ := by
  obtain ⟨meta, prest, brest2, bp, prow, brow2, hm2, hp2, hb2, hbp, hasm⟩ :=
    pool_snapshot_ok_inv h
  rw [hb] at hb2
  injection hb2 with hb2
  injection hb2 with hb2a hb2b
  subst hb2a
  obtain ⟨-, -, -, -, -, -, -, -, -, hcd, -, hby, hun⟩ := assemble_ok_fields hasm
  rw [hcd] at hdi
  have hz : (brow.balances.zip
      ((if meta.metapool = true then meta.coins.take 2 else meta.coins).map
        CoinInfo.decimals))[i]? = some (b, d) :=
    List.getElem?_zip_eq_some.mpr ⟨hbi, hdi⟩
  constructor
  · rw [hby, List.getElem?_map, hz]
    have hv : pyint (b * (10 : ℚ) ^ 18) = ⌊b * (10 : ℚ) ^ 18⌋ :=
      pyint_of_nonneg (mul_nonneg hpos (by positivity))
    simp [hv]
  · rw [hun, List.getElem?_map, hz]
    have hv : pyint (b * (10 : ℚ) ^ d) = ⌊b * (10 : ℚ) ^ d⌋ :=
      pyint_of_nonneg (mul_nonneg hpos (by positivity))
    simp [hv]

/-- Witness for C5 at the concrete stableswap backend: the fractional
DAI balance 7/2 lands as its floored scalings. -/
theorem C5_reserve_scaling_witness :
    (resOk (pool_snapshot env_stable 900 1 "0xP" "mainnet" (some 1000))).reserves.by_coin[1]? =
      some ⌊(7 / 2 : ℚ) * (10 : ℚ) ^ 18⌋ ∧
    (resOk (pool_snapshot env_stable 900 1 "0xP" "mainnet"
        (some 1000))).reserves.unnormalized_by_coin[1]? =
      some ⌊(7 / 2 : ℚ) * (10 : ℚ) ^ 18⌋ :=
  C5_reserve_scaling env_stable 900 0 "0xP" "mainnet" (some 1000)
    (resOk (pool_snapshot env_stable 900 1 "0xP" "mainnet" (some 1000)))
    brow_stable [] (by rfl) (by rfl) 1 (7 / 2) 18 (by rfl) (by rfl) (by norm_num)

/-- C10: in every snapshot the Prices-API assembler returns, including
nested base-pool snapshots, the symbol field equals the name field (both
copy the provider metadata's pool name). -/
theorem C10_symbol_equals_name (env : Env) (now : ℤ) :
    ∀ fuel address chain ts s,
      pool_snapshot env now fuel address chain ts = .ok s →
      SnapAll (fun t => t.symbol = t.name) s := by
  intro fuel
  induction fuel with
  | zero =>
    intro address chain ts s h
    exact absurd h (by simp [pool_snapshot])
  | succ fuel ih =>
    intro address chain ts s h
    obtain ⟨meta, prest, brest, bp, prow, brow, hm, hp, hb, hbp, hasm⟩ :=
      pool_snapshot_ok_inv h
    obtain ⟨hname, hsym, -, -, -, hbpool, -, -, -, -, -, -, -⟩ := assemble_ok_fields hasm
    refine snapAll_intro _ _ (hsym.trans hname.symm) ?_
    intro b hbmem
    rcases hbp with ⟨b2, hmpt, hrec, rfl⟩ | ⟨-, rfl⟩
    · rw [hbpool] at hbmem
      injection hbmem with e
      subst e
      exact ih _ _ _ _ hrec
    · rw [hbpool] at hbmem
      exact Option.noConfusion hbmem

/-- Witness for C10 at the concrete metapool backend (one nested
level). -/
theorem C10_symbol_equals_name_witness :
    SnapAll (fun t => t.symbol = t.name)
      (resOk (pool_snapshot env_meta 900 2 "0xM" "mainnet" (some 1000))) :=
  C10_symbol_equals_name env_meta 900 2 "0xM" "mainnet" (some 1000)
    (resOk (pool_snapshot env_meta 900 2 "0xM" "mainnet" (some 1000))) (by rfl)

/-- Counterexample to C4: a backend whose balance row is shorter than
the coin list still resolves successfully, and the reserve arrays end up
shorter than the coin arrays (zip truncation). -/
theorem C4_counterexample :
    resolution_succeeded (pool_snapshot env_short 900 1 "0xS" "mainnet" (some 1000)) =
      true ∧
    (resOk (pool_snapshot env_short 900 1 "0xS" "mainnet" (some 1000))).coins.names.length =
      2 ∧
    (resOk (pool_snapshot env_short 900 1 "0xS" "mainnet"
        (some 1000))).reserves.by_coin.length = 1 :=
  ⟨rfl, rfl, rfl⟩

/-- The concrete metapool backend satisfies the provider alignment
assumption. -/
theorem env_meta_cover : balances_cover env_meta := by
  intro c a meta hm s e u rows hb row hrow
  simp only [env_meta, envOf] at hm hb
  by_cases hc : c = "ethereum"
  · rw [if_pos hc] at hm
    rw [if_pos hc] at hb
    cases h1 : (a == "0xM") with
    | true =>
      simp only [List.lookup, h1, Option.map_some] at hm hb
      injection hm with hm
      injection hb with hb
      subst hm
      subst hb
      simp only [List.mem_singleton] at hrow
      subst hrow
      decide
    | false =>
      cases h2 : (a == "0xB") with
      | true =>
        simp only [List.lookup, h1, h2, Option.map_some] at hm hb
        injection hm with hm
        injection hb with hb
        subst hm
        subst hb
        simp only [List.mem_singleton] at hrow
        subst hrow
        decide
      | false =>
        simp only [List.lookup, h1, h2, Option.map_none] at hm
        exact Option.noConfusion hm
  · rw [if_neg hc] at hm
    exact Option.noConfusion hm

/-- C4 amended: the three coin arrays always have equal length, and the
two reserve arrays are the zip of the provider balance row with the coin
decimals — so all five arrays have equal length in every snapshot,
including nested base pools, whenever the backend's balance rows carry
at least as many balances as the pool's coin list; a shorter balance row
silently truncates the reserve arrays instead. -/
theorem C4_array_lengths (env : Env) (now : ℤ) (hcov : balances_cover env) :
    ∀ fuel address chain ts s,
      pool_snapshot env now fuel address chain ts = .ok s →
      SnapAll len_invariant s := by
  intro fuel
  induction fuel with
  | zero =>
    intro address chain ts s h
    exact absurd h (by simp [pool_snapshot])
  | succ fuel ih =>
    intro address chain ts s h
    obtain ⟨meta, prest, brest, bp, prow, brow, hm, hp, hb, hbp, hasm⟩ :=
      pool_snapshot_ok_inv h
    obtain ⟨-, -, -, -, -, hbpool, -, hcn, hca, hcd, -, hby, hun⟩ :=
      assemble_ok_fields hasm
    have hcover : meta.coins.length ≤ brow.balances.length :=
      hcov _ _ _ (_pool_metadata_ok_inv hm) _ _ _ _ (_pool_balances_ok_inv hb) brow
        (List.mem_cons_self _ _)
    have hkept : (if meta.metapool = true then meta.coins.take 2 else meta.coins).length ≤
        brow.balances.length := by
      split
      · refine le_trans ?_ hcover
        rw [List.length_take]
        exact Nat.min_le_right 2 meta.coins.length
      · exact hcover
    refine snapAll_intro _ _ ?_ ?_
    · unfold len_invariant
      rw [hcn, hca, hcd, hby, hun]
      simp only [List.length_map, List.length_zip]
      exact ⟨trivial, trivial, (Nat.min_eq_right hkept).symm, trivial⟩
    · intro b hbmem
      rcases hbp with ⟨b2, hmpt, hrec, rfl⟩ | ⟨-, rfl⟩
      · rw [hbpool] at hbmem
        injection hbmem with e
        subst e
        exact ih _ _ _ _ hrec
      · rw [hbpool] at hbmem
        exact Option.noConfusion hbmem

/-- Witness for C4 amended at the concrete aligned metapool backend. -/
theorem C4_array_lengths_witness :
    SnapAll len_invariant
      (resOk (pool_snapshot env_meta 900 2 "0xM" "mainnet" (some 1000))) :=
  C4_array_lengths env_meta 900 env_meta_cover 2 "0xM" "mainnet" (some 1000)
    (resOk (pool_snapshot env_meta 900 2 "0xM" "mainnet" (some 1000))) (by rfl)
